import Mathlib

/-!
Verification of the deployment-orchestration & webhook-redeployment core of
the ElevateXHost backend, as a shallow embedding in Lean.

The embedding follows the TypeScript source:
* `src/utils/webhookVerifier.ts` — `verifyGitHubSignature`, with a full
  executable HMAC-SHA256 model of Node's `crypto.createHmac('sha256', _)`.
* `src/routes/webhooks.ts` — the GitHub webhook dispatcher.
* the Cloudflare / Netlify provider services — status normalization
  (`coerceStatus`) and the pre-network validation phase of `createDeployment`.
* `src/services/encryptionService.ts` (token vault) and
  `src/models/User.ts` — `encryptToken` / `decryptToken` / `getGitHubToken`,
  with AES-256-GCM modelled as an abstract keystream-plus-MAC AEAD (which is
  the literal shape of GCM: CTR keystream XOR plaintext, GHASH tag over the
  ciphertext) and PBKDF2 as an abstract key-derivation parameter.
* the project routes — the DELETE /projects/:projectId handler.

Bytes are `Nat` values below 256; machine 32-bit words are `Nat` reduced
modulo 2 ^ 32 where overflow matters.
-/

/-! ## Byte and string utilities -/

/-- The bytes of a string, one per character codepoint.  Faithful to Node's
`Buffer.from(s)` / `hmac.update(s)` for ASCII data, which is the only data the
webhook code ever signs or compares. -/
def strBytes (s : String) : List Nat := s.toList.map Char.toNat

/-- Does the list start with the given sequence? (model of JS
`String.startsWith` at the character level). -/
def startsWithSeq : List Char → List Char → Bool
  | _, [] => true
  | [], _ :: _ => false
  | a :: as, b :: bs => a == b && startsWithSeq as bs

/-- Does the list contain the given sequence as a contiguous run?
(model of JS `String.includes`). -/
def containsSeq : List Char → List Char → Bool
  | [], sub => sub.isEmpty
  | l@(_ :: rest), sub => startsWithSeq l sub || containsSeq rest sub

/-- ASCII lower-casing of one character (model of `toLowerCase` on the ASCII
range, the only range the provider status vocabularies use). -/
def charLower (c : Char) : Char :=
  if 'A' ≤ c ∧ c ≤ 'Z' then Char.ofNat (c.toNat + 32) else c

/-- The lower-cased characters of a string. -/
def strLower (s : String) : List Char := s.toList.map charLower

/-- `containsTok v kw`: the lower-cased character list `v` contains the
keyword `kw` (model of `v.includes(kw)` in the status normalizers). -/
def containsTok (v : List Char) (kw : String) : Bool := containsSeq v kw.toList

/-- Replace the first occurrence of `pat` in a character list by `rep`
(model of JS `String.replace(pat, rep)` with a string pattern, which replaces
only the first occurrence, wherever it is). -/
def replaceFirstList (pat rep : List Char) : List Char → List Char
  | [] => if startsWithSeq [] pat then rep else []
  | l@(c :: rest) =>
    if startsWithSeq l pat then rep ++ l.drop pat.length
    else c :: replaceFirstList pat rep rest

/-- Replace the first occurrence of `pat` in `s` by the empty string
(the dispatcher's `ref.replace('refs/heads/', '')`). -/
def replaceFirst (s pat : String) : String :=
  String.mk (replaceFirstList pat.toList [] s.toList)

/-- Split a character list at every occurrence of the separator character
(model of JS `String.split('/')`: `"" ↦ [""]`, `"a/" ↦ ["a", ""]`). -/
def splitOnChar (sep : Char) : List Char → List (List Char)
  | [] => [[]]
  | a :: rest =>
    match splitOnChar sep rest with
    | [] => [[a]]
    | g :: gs => if a == sep then [] :: g :: gs else (a :: g) :: gs

/-! ## SHA-256 (executable, over byte lists) -/

/-- The 64 SHA-256 round constants. -/
def sha256K : List Nat :=
  [1116352408, 1899447441, 3049323471, 3921009573, 961987163,
   1508970993, 2453635748, 2870763221, 3624381080, 310598401,
   607225278, 1426881987, 1925078388, 2162078206, 2614888103,
   3248222580, 3835390401, 4022224774, 264347078, 604807628,
   770255983, 1249150122, 1555081692, 1996064986, 2554220882,
   2821834349, 2952996808, 3210313671, 3336571891, 3584528711,
   113926993, 338241895, 666307205, 773529912, 1294757372,
   1396182291, 1695183700, 1986661051, 2177026350, 2456956037,
   2730485921, 2820302411, 3259730800, 3345764771, 3516065817,
   3600352804, 4094571909, 275423344, 430227734, 506948616,
   659060556, 883997877, 958139571, 1322822218, 1537002063,
   1747873779, 1955562222, 2024104815, 2227730452, 2361852424,
   2428436474, 2756734187, 3204031479, 3329325298]

/-- The SHA-256 initial hash state. -/
def sha256H0 : List Nat :=
  [1779033703, 3144134277, 1013904242, 2773480762,
   1359893119, 2600822924, 528734635, 1541459225]

/-- 32-bit right rotation. -/
def rotr32 (n x : Nat) : Nat :=
  ((x >>> n) ||| (x <<< (32 - n))) % 4294967296

/-- Big sigma 0. -/
def bigSigma0 (x : Nat) : Nat := rotr32 2 x ^^^ rotr32 13 x ^^^ rotr32 22 x

/-- Big sigma 1. -/
def bigSigma1 (x : Nat) : Nat := rotr32 6 x ^^^ rotr32 11 x ^^^ rotr32 25 x

/-- Small sigma 0. -/
def smallSigma0 (x : Nat) : Nat := rotr32 7 x ^^^ rotr32 18 x ^^^ (x >>> 3)

/-- Small sigma 1. -/
def smallSigma1 (x : Nat) : Nat := rotr32 17 x ^^^ rotr32 19 x ^^^ (x >>> 10)

/-- SHA-256 padding: append `0x80`, zeros, and the 64-bit big-endian bit
length, reaching a multiple of 64 bytes. -/
def sha256Pad (msg : List Nat) : List Nat :=
  let len := msg.length
  let bitLen := 8 * len
  let zeros := (119 - len % 64) % 64
  msg ++ [128] ++ List.replicate zeros 0 ++
    [(bitLen >>> 56) % 256, (bitLen >>> 48) % 256, (bitLen >>> 40) % 256,
     (bitLen >>> 32) % 256, (bitLen >>> 24) % 256, (bitLen >>> 16) % 256,
     (bitLen >>> 8) % 256, bitLen % 256]

/-- Big-endian 32-bit words from bytes (length a multiple of 4). -/
def toWords : List Nat → List Nat
  | b0 :: b1 :: b2 :: b3 :: rest =>
    ((b0 <<< 24) ||| (b1 <<< 16) ||| (b2 <<< 8) ||| b3) :: toWords rest
  | _ => []

/-- Bytes (big-endian) of a list of 32-bit words. -/
def wordsToBytes : List Nat → List Nat
  | [] => []
  | w :: rest =>
    (w >>> 24) % 256 :: (w >>> 16) % 256 :: (w >>> 8) % 256 :: w % 256 ::
      wordsToBytes rest

/-- Extend a reversed 16-word block by `n` further message-schedule words
(most recent first in the accumulator). -/
def extendSched : Nat → List Nat → List Nat
  | 0, acc => acc.reverse
  | n + 1, acc =>
    let g := fun k => (acc.get? k).getD 0
    let w := (smallSigma1 (g 1) + g 6 + smallSigma0 (g 14) + g 15) % 4294967296
    extendSched n (w :: acc)

/-- The full 64-word message schedule of a 16-word block. -/
def sha256Sched (block : List Nat) : List Nat := extendSched 48 block.reverse

/-- One round of the SHA-256 compression function on the 8-tuple working
state, consuming one (constant, schedule-word) pair. -/
def sha256Round (st : Nat × Nat × Nat × Nat × Nat × Nat × Nat × Nat)
    (kw : Nat × Nat) : Nat × Nat × Nat × Nat × Nat × Nat × Nat × Nat :=
  let (a, b, c, d, e, f, g, h) := st
  let (k, w) := kw
  let t1 := (h + bigSigma1 e + ((e &&& f) ^^^ ((4294967295 ^^^ e) &&& g)) + k + w) % 4294967296
  let t2 := (bigSigma0 a + ((a &&& b) ^^^ (a &&& c) ^^^ (b &&& c))) % 4294967296
  ((t1 + t2) % 4294967296, a, b, c, (d + t1) % 4294967296, e, f, g)

/-- Compress one 16-word block into the 8-word chaining state. -/
def compressBlock (h : List Nat) (block : List Nat) : List Nat :=
  let g := fun k => (h.get? k).getD 0
  let init := (g 0, g 1, g 2, g 3, g 4, g 5, g 6, g 7)
  let (a, b, c, d, e, f, gg, hh) :=
    (List.zip sha256K (sha256Sched block)).foldl sha256Round init
  [(g 0 + a) % 4294967296, (g 1 + b) % 4294967296, (g 2 + c) % 4294967296,
   (g 3 + d) % 4294967296, (g 4 + e) % 4294967296, (g 5 + f) % 4294967296,
   (g 6 + gg) % 4294967296, (g 7 + hh) % 4294967296]

/-- Fold the compression function over all 16-word blocks (the padded
message is always a whole number of blocks, so the catch-all is unreachable). -/
def sha256Chunks (h : List Nat) : List Nat → List Nat
  | w0 :: w1 :: w2 :: w3 :: w4 :: w5 :: w6 :: w7 ::
    w8 :: w9 :: w10 :: w11 :: w12 :: w13 :: w14 :: w15 :: rest =>
    sha256Chunks
      (compressBlock h
        [w0, w1, w2, w3, w4, w5, w6, w7, w8, w9, w10, w11, w12, w13, w14, w15])
      rest
  | _ => h

/-- SHA-256 of a byte list, as its 32 digest bytes. -/
def sha256 (msg : List Nat) : List Nat :=
  wordsToBytes (sha256Chunks sha256H0 (toWords (sha256Pad msg)))

/-- HMAC-SHA256 over byte lists (model of Node
`crypto.createHmac('sha256', key).update(msg).digest()`). -/
def hmacSha256 (key msg : List Nat) : List Nat :=
  let k0 := if 64 < key.length then sha256 key else key
  let kp := k0 ++ List.replicate (64 - k0.length) 0
  let ipad := kp.map (fun b => b ^^^ 54)
  let opad := kp.map (fun b => b ^^^ 92)
  sha256 (opad ++ sha256 (ipad ++ msg))

/-- One lowercase hex digit. -/
def hexDigit (n : Nat) : Char :=
  if n < 10 then Char.ofNat (48 + n) else Char.ofNat (87 + n)

/-- Lowercase hex encoding of a byte list (model of `digest('hex')`). -/
def bytesToHex (l : List Nat) : String :=
  String.mk (l.flatMap fun b => [hexDigit (b / 16 % 16), hexDigit (b % 16)])

/-- Lowercase hex HMAC-SHA256 of strings. -/
def hmacHex (secret payload : String) : String :=
  bytesToHex (hmacSha256 (strBytes secret) (strBytes payload))

/-! ## webhookVerifier.ts -/

/-- The signature string GitHub attaches to a delivery of body `payload`
signed with `secret`: `sha256=` followed by the lowercase hex HMAC-SHA256. -/
def githubSig (secret payload : String) : String :=
  "sha256=" ++ hmacHex secret payload

/-- `verifyGitHubSignature` from `src/utils/webhookVerifier.ts`: fail closed
on any empty argument, recompute `sha256=<hex hmac>`, refuse on byte-length
mismatch, otherwise compare byte-wise (Node's `crypto.timingSafeEqual` is
functionally byte equality; the `try/catch` is unreachable because
`timingSafeEqual` only throws on a length mismatch, which is pre-checked). -/
def verifyGitHubSignature (payload signature secret : String) : Bool :=
  if payload = "" || signature = "" || secret = "" then false
  else
    let digest := githubSig secret payload
    let sigBuffer := strBytes signature
    let digestBuffer := strBytes digest
    if sigBuffer.length ≠ digestBuffer.length then false
    else sigBuffer == digestBuffer

/-! ## A minimal JSON model

The webhook dispatcher only reads string fields out of (nested) objects, so
the embedding models exactly that fragment.  `jsonStringify` mirrors
`JSON.stringify` on it (insertion order, no added whitespace; the strings in
webhook payloads need no escaping), and `jsonParse` mirrors `JSON.parse` on
the same fragment (accepting insignificant whitespace). -/

/-- JSON fragment: strings and objects of string keys. -/
inductive Json where
  | str (s : String)
  | obj (fields : List (String × Json))
deriving Repr

/-- Field lookup in the order-preserving field list. -/
def fieldLookup : List (String × Json) → String → Option Json
  | [], _ => none
  | (k1, v) :: rest, k => if k1 = k then some v else fieldLookup rest k

/-- `j[k]` for an object, `undefined` otherwise. -/
def jsonField : Json → String → Option Json
  | .obj fs, k => fieldLookup fs k
  | _, _ => none

/-- A string-valued field, `undefined` otherwise. -/
def jsonStrField (j : Json) (k : String) : Option String :=
  match jsonField j k with
  | some (.str s) => some s
  | _ => none

mutual

/-- `JSON.stringify` on the fragment. -/
def jsonStringify : Json → String
  | .str s => "\"" ++ s ++ "\""
  | .obj fs => "\x7b" ++ stringifyFields fs ++ "\x7d"

/-- The comma-separated `"key":value` members of an object. -/
def stringifyFields : List (String × Json) → String
  | [] => ""
  | [(k, v)] => "\"" ++ k ++ "\":" ++ jsonStringify v
  | (k, v) :: rest =>
    "\"" ++ k ++ "\":" ++ jsonStringify v ++ "," ++ stringifyFields rest

end

/-- Drop insignificant JSON whitespace. -/
def skipWs (l : List Char) : List Char :=
  l.dropWhile fun c => c == ' ' || c == '\t' || c == '\n' || c == '\r'

/-- Parse the characters of a string literal after its opening quote
(escape-free fragment). -/
def parseStrChars : List Char → Option (List Char × List Char)
  | [] => none
  | c :: rest =>
    if c = '"' then some ([], rest)
    else if c = '\\' then none
    else (parseStrChars rest).map fun p => (c :: p.1, p.2)

mutual

/-- Fuel-bounded parser for a JSON value of the fragment. -/
def parseValue : Nat → List Char → Option (Json × List Char)
  | 0, _ => none
  | f + 1, l =>
    match skipWs l with
    | '"' :: rest =>
      match parseStrChars rest with
      | some (cs, r) => some (Json.str (String.mk cs), r)
      | none => none
    | '\x7b' :: rest =>
      match skipWs rest with
      | '\x7d' :: r2 => some (Json.obj [], r2)
      | _ =>
        match parseMembers f (skipWs rest) with
        | some (fs, r) => some (Json.obj fs, r)
        | none => none
    | _ => none

/-- Fuel-bounded parser for one-or-more object members. -/
def parseMembers : Nat → List Char → Option (List (String × Json) × List Char)
  | 0, _ => none
  | f + 1, l =>
    match skipWs l with
    | '"' :: rest =>
      match parseStrChars rest with
      | some (kcs, r1) =>
        match skipWs r1 with
        | ':' :: r2 =>
          match parseValue f r2 with
          | some (v, r3) =>
            match skipWs r3 with
            | ',' :: r4 =>
              match parseMembers f r4 with
              | some (fs, r5) => some ((String.mk kcs, v) :: fs, r5)
              | none => none
            | '\x7d' :: r4 => some ([(String.mk kcs, v)], r4)
            | _ => none
          | none => none
        | _ => none
      | none => none
    | _ => none

end

/-- `JSON.parse` on the fragment: parse one value and require only
whitespace to remain. -/
def jsonParse (s : String) : Option Json :=
  match parseValue (s.toList.length + 1) s.toList with
  | some (v, rest) => if skipWs rest = [] then some v else none
  | none => none

/-! ## The project record and the webhook dispatcher (`src/routes/webhooks.ts`) -/

/-- The closed three-state deployment lifecycle. -/
inductive ProjectStatus where
  | deploying
  | deployed
  | failed
deriving DecidableEq, Repr

/-- The slice of the Project document the webhook dispatcher reads and
writes (timestamps as abstract `Nat` ticks). -/
structure WebhookProject where
  githubRepo : String
  webhookSecret : String
  defaultBranch : String
  status : ProjectStatus
  lastDeploymentTime : Option Nat
deriving DecidableEq, Repr

/-- Outcome of one dispatch: the HTTP status, how many provider redeploy
calls were made, and the state of the looked-up project afterwards (`none`
when the flow ended before a project was found). -/
structure WebhookResult where
  status : Nat
  redeployCalls : Nat
  project : Option WebhookProject
deriving DecidableEq, Repr

/-- `payload.repository?.full_name`. -/
def getRepoFullName (payload : Json) : Option String :=
  match jsonField payload "repository" with
  | some r => jsonStrField r "full_name"
  | none => none

/-- The `POST /webhook/github` handler of `src/routes/webhooks.ts`:
non-push events are ignored with 200; a missing/empty `repository.full_name`
is 400; an untracked repo is a silent 404; the signature is verified against
`JSON.stringify(payload)` (the parsed body re-serialized — the raw request
body is not retained); a missing/empty `ref` is 400; a non-default branch is
skipped with 200; otherwise `project.triggerRedeploy()` makes one provider
redeploy call (a throwing provider call is caught as 500 after the call was
made), and on success the project is saved as `deploying` with
`lastDeploymentTime = now`. -/
def handleGithubWebhook (lookup : String → Option WebhookProject)
    (eventType : String) (signature : String) (payload : Json)
    (now : Nat) (providerOk : Bool) : WebhookResult :=
  if eventType ≠ "push" then ⟨200, 0, none⟩
  else
    let repoFullName := (getRepoFullName payload).getD ""
    if repoFullName = "" then ⟨400, 0, none⟩
    else
      match lookup repoFullName with
      | none => ⟨404, 0, none⟩
      | some project =>
        if verifyGitHubSignature (jsonStringify payload) signature
            project.webhookSecret then
          let ref := (jsonStrField payload "ref").getD ""
          if ref = "" then ⟨400, 0, some project⟩
          else
            let branch := replaceFirst ref "refs/heads/"
            if branch ≠ project.defaultBranch then ⟨200, 0, some project⟩
            else if providerOk then
              ⟨200, 1,
                some { project with
                        status := .deploying, lastDeploymentTime := some now }⟩
            else ⟨500, 1, some project⟩
        else ⟨401, 0, some project⟩

/-! ## Provider status normalization and createDeployment validation -/

namespace Cloudflare

/-- `coerceStatus` from `src/services/cloudflareService.ts`: non-strings are
`deploying`; otherwise lower-case and look for success-class keywords
(`success`/`active`/`ready`), then failure-class keywords (`fail`/`error`);
anything else is `deploying`. -/
def coerceStatus (value : Option String) : ProjectStatus :=
  match value with
  | none => .deploying
  | some s =>
    let v := strLower s
    if containsTok v "success" || containsTok v "active" || containsTok v "ready" then
      .deployed
    else if containsTok v "fail" || containsTok v "error" then .failed
    else .deploying

/-- The part of `CloudflareService.createDeployment` that runs before any
network request: `const [owner, repo] = gitHubRepo.split('/')` followed by
`if (!owner || !repo) throw new CloudflareError(400, 'INVALID_GITHUB_REPO', …)`.
On success it yields the `(owner, repo_name)` pair placed into the request
body of the first network call. -/
def prepareCreate (gitHubRepo : String) : Except String (String × String) :=
  let parts := (splitOnChar '/' gitHubRepo.toList).map fun l => String.mk l
  let owner := (parts.get? 0).getD ""
  let repo := (parts.get? 1).getD ""
  if owner = "" || repo = "" then .error "INVALID_GITHUB_REPO"
  else .ok (owner, repo)

end Cloudflare

namespace Netlify

/-- `coerceStatus` from `src/services/netlifyService.ts`: non-strings are
`deploying`; success-class keywords are `current`/`ready`/`published`,
failure-class keywords are `error`/`failed`; anything else is `deploying`. -/
def coerceStatus (value : Option String) : ProjectStatus :=
  match value with
  | none => .deploying
  | some s =>
    let v := strLower s
    if containsTok v "current" || containsTok v "ready" || containsTok v "published" then
      .deployed
    else if containsTok v "error" || containsTok v "failed" then .failed
    else .deploying

/-- The part of `NetlifyService.createDeployment` that runs before its first
network request: there is no repository validation at all — the raw
`gitHubRepo` string is placed directly into the `repo.repo` field of the
`POST /sites` body. -/
def prepareCreate (gitHubRepo : String) : Except String String :=
  .ok gitHubRepo

end Netlify

/-! ## Base64 (model of `Buffer.toString('base64')` / `Buffer.from(_, 'base64')`) -/

/-- The base64 alphabet. -/
def b64AlphabetList : List Char :=
  "ABCDEFGHIJKLMNOPQRSTUVWXYZabcdefghijklmnopqrstuvwxyz0123456789+/".toList

/-- The `n`-th base64 alphabet character. -/
def b64Chr (n : Nat) : Char := b64AlphabetList.getD n 'A'

/-- Index of a character in the base64 alphabet. -/
def b64ValAux : List Char → Nat → Char → Option Nat
  | [], _, _ => none
  | a :: rest, i, c => if a = c then some i else b64ValAux rest (i + 1) c

/-- The sextet value of a base64 character. -/
def b64Val (c : Char) : Option Nat := b64ValAux b64AlphabetList 0 c

/-- Base64 characters of a byte list, three bytes to four characters, with
`=` padding. -/
def b64EncodeList : List Nat → List Char
  | [] => []
  | [a] => [b64Chr (a / 4), b64Chr (a % 4 * 16), '=', '=']
  | [a, b] => [b64Chr (a / 4), b64Chr (a % 4 * 16 + b / 16), b64Chr (b % 16 * 4), '=']
  | a :: b :: c :: rest =>
    b64Chr (a / 4) :: b64Chr (a % 4 * 16 + b / 16) ::
      b64Chr (b % 16 * 4 + c / 64) :: b64Chr (c % 64) :: b64EncodeList rest

/-- Base64 encoding of a byte list as a string. -/
def b64Encode (bytes : List Nat) : String := String.mk (b64EncodeList bytes)

/-- The sextet values the encoder produces for a byte list (no padding). -/
def b64Sextets : List Nat → List Nat
  | [] => []
  | [a] => [a / 4, a % 4 * 16]
  | [a, b] => [a / 4, a % 4 * 16 + b / 16, b % 16 * 4]
  | a :: b :: c :: rest =>
    a / 4 :: (a % 4 * 16 + b / 16) :: (b % 16 * 4 + c / 64) :: c % 64 ::
      b64Sextets rest

/-- Sextet values of a character list; `none` if any character is outside
the alphabet. -/
def b64Vals : List Char → Option (List Nat)
  | [] => some []
  | c :: cs =>
    match b64Val c, b64Vals cs with
    | some v, some vs => some (v :: vs)
    | _, _ => none

/-- Reassemble bytes from sextets, four sextets to three bytes, with a
two- or three-sextet final group (from `=` padding). -/
def b64Quads : List Nat → Option (List Nat)
  | [] => some []
  | [_] => none
  | [s1, s2] => some [s1 * 4 + s2 / 16]
  | [s1, s2, s3] => some [s1 * 4 + s2 / 16, s2 % 16 * 16 + s3 / 4]
  | s1 :: s2 :: s3 :: s4 :: rest =>
    (b64Quads rest).map fun tl =>
      (s1 * 4 + s2 / 16) :: (s2 % 16 * 16 + s3 / 4) :: (s3 % 4 * 64 + s4) :: tl

/-- Base64 decoding of a string into bytes. -/
def b64Decode (s : String) : Option (List Nat) :=
  match b64Vals (s.toList.filter fun c => c != '=') with
  | some sextets => b64Quads sextets
  | none => none

/-! ## The credential vault (`encryptToken` / `decryptToken`)

`src/services/encryptionService.ts` drives Node's AES-256-GCM.  The cipher
itself is an external library; it is modelled here as an abstract AEAD in
exactly GCM's shape — a keystream XOR-ed onto the plaintext plus a 16-byte
tag computed over the ciphertext — with only the laws every AEAD of that
shape satisfies.  PBKDF2 is likewise an abstract key-derivation parameter
(`kdf serverKey salt iterations length`), applied by the source with
100000 iterations and a 32-byte output.  Plaintext tokens appear as their
UTF-8 bytes. -/

/-- An authenticated cipher of GCM's keystream-plus-MAC shape. -/
structure AEADModel where
  keystream : List Nat → List Nat → Nat → List Nat
  mac : List Nat → List Nat → List Nat → List Nat
  keystream_length : ∀ k iv n, (keystream k iv n).length = n
  keystream_lt : ∀ k iv n, ∀ b ∈ keystream k iv n, b < 256
  mac_length : ∀ k iv ct, (mac k iv ct).length = 16
  mac_lt : ∀ k iv ct, ∀ b ∈ mac k iv ct, b < 256

/-- GCM encryption in the model: ciphertext and authentication tag. -/
def gcmEncrypt (A : AEADModel) (key iv pt : List Nat) : List Nat × List Nat :=
  let ct := List.zipWith (fun x y => x ^^^ y) pt (A.keystream key iv pt.length)
  (ct, A.mac key iv ct)

/-- GCM decryption in the model: recompute the tag over the ciphertext and
fail without releasing any plaintext when it does not match. -/
def gcmDecrypt (A : AEADModel) (key iv ct tag : List Nat) : Option (List Nat) :=
  if A.mac key iv ct = tag then
    some (List.zipWith (fun x y => x ^^^ y) ct (A.keystream key iv ct.length))
  else none

/-- `encryptToken` from the encryption service: reject an empty token and a
missing `ENCRYPTION_KEY` (both throw), derive the per-encryption key from the
server key and the fresh 16-byte salt by PBKDF2 (100000 iterations, 32
bytes), encrypt under the fresh 12-byte IV, and emit
`base64(salt ‖ iv ‖ authTag ‖ ciphertext)`.  The random `salt` and `iv` drawn
by `crypto.randomBytes` are explicit arguments. -/
def encryptToken (A : AEADModel)
    (kdf : String → List Nat → Nat → Nat → List Nat) (encryptionKey : String)
    (salt iv token : List Nat) : Except String String :=
  if token = [] then .error "Token is required for encryption"
  else if encryptionKey = "" then
    .error "ENCRYPTION_KEY environment variable is not set"
  else
    let key := kdf encryptionKey salt 100000 32
    let ct := (gcmEncrypt A key iv token).1
    let tag := (gcmEncrypt A key iv token).2
    .ok (b64Encode (salt ++ iv ++ tag ++ ct))

/-- `decryptToken` from the encryption service: empty input yields the empty
token; a missing `ENCRYPTION_KEY` throws; otherwise decode the blob, split it
at the fixed offsets 16/28/44, re-derive the key from the embedded salt, and
decrypt.  Every decryption failure (undecodable blob, too-short blob, or an
authentication-tag mismatch) is caught and yields the empty token — never
partially-decrypted data. -/
def decryptToken (A : AEADModel)
    (kdf : String → List Nat → Nat → Nat → List Nat) (encryptionKey : String)
    (blob : String) : Except String (List Nat) :=
  if blob = "" then .ok []
  else if encryptionKey = "" then
    .error "ENCRYPTION_KEY environment variable is not set"
  else
    match b64Decode blob with
    | none => .ok []
    | some combined =>
      if combined.length < 44 then .ok []
      else
        let salt := combined.take 16
        let iv := (combined.drop 16).take 12
        let tag := (combined.drop 28).take 16
        let encryptedData := combined.drop 44
        let key := kdf encryptionKey salt 100000 32
        match gcmDecrypt A key iv encryptedData tag with
        | some pt => .ok pt
        | none => .ok []

/-- `User.getGitHubToken` from `src/models/User.ts`: no stored credential (or
an empty one — JS falsiness) yields the empty token; otherwise decrypt, and
catch any decryption exception as the empty token instead of propagating. -/
def getGitHubToken (A : AEADModel)
    (kdf : String → List Nat → Nat → Nat → List Nat) (encryptionKey : String)
    (githubAccessToken : Option String) : List Nat :=
  match githubAccessToken with
  | none => []
  | some enc =>
    match decryptToken A kdf encryptionKey enc with
    | .ok t => t
    | .error _ => []

/-! ## The project DELETE route (`router.delete('/:projectId')`) -/

/-- The slice of the Project document the delete route reads. -/
structure DeleteProject where
  userId : String
  deploymentId : String
  status : ProjectStatus
deriving DecidableEq, Repr

/-- Outcome of the provider's `deleteDeployment` call: success, a
`CloudflareError`/`NetlifyError`, or any other thrown error. -/
inductive ProviderDeleteOutcome where
  | ok
  | providerError (statusCode : Nat) (message : String)
  | unknownError
deriving DecidableEq, Repr

/-- Result of one DELETE dispatch: HTTP status, whether the local record was
removed, and the stored record afterwards. -/
structure DeleteResult where
  httpStatus : Nat
  localDeleted : Bool
  remaining : Option DeleteProject
deriving DecidableEq, Repr

/-- The `DELETE /projects/:projectId` handler: authenticate, load, check
ownership, then call the provider's `deleteDeployment` FIRST; only when that
call returns successfully is the local record removed (`project.deleteOne()`).
A `CloudflareError`/`NetlifyError` is answered 502 and any other provider
failure 500, in both cases before any local write, leaving the record
intact. -/
def handleDeleteProject (authUser : Option String)
    (stored : Option DeleteProject) (outcome : ProviderDeleteOutcome) :
    DeleteResult :=
  match authUser with
  | none => ⟨401, false, stored⟩
  | some uid =>
    match stored with
    | none => ⟨404, false, none⟩
    | some project =>
      if project.userId ≠ uid then ⟨403, false, some project⟩
      else
        match outcome with
        | .ok => ⟨200, true, none⟩
        | .providerError _ _ => ⟨502, false, some project⟩
        | .unknownError => ⟨500, false, some project⟩

/-! ## Facts about the signature verifier -/

/-- Characters with equal codepoints are equal. -/
theorem charToNat_injective : Function.Injective Char.toNat := by
  intro a b h
  cases a; cases b
  simpa [Char.toNat, Char.ext_iff, UInt32.ext_iff] using h

/-- Strings with equal byte lists are equal. -/
theorem strBytes_injective : Function.Injective strBytes := by
  intro s t h
  have hl : s.toList = t.toList :=
    List.map_injective_iff.mpr charToNat_injective h
  exact String.ext hl

/-- A well-formed GitHub signature header is never the empty string. -/
theorem githubSig_ne_empty (s p : String) : githubSig s p ≠ "" := by
  intro h
  have hl := congrArg String.length h
  simp [githubSig, String.length_append] at hl
  exact absurd hl.1 (by decide)

/-- Completeness: with a non-empty payload and secret, the signature GitHub
computes over that payload is accepted. -/
theorem verify_true_of_valid (p s : String) (hp : p ≠ "") (hs : s ≠ "") :
    verifyGitHubSignature p (githubSig s p) s = true := by
  unfold verifyGitHubSignature
  simp [hp, hs, githubSig_ne_empty s p]

/-- Fail closed: an empty payload, header, or secret is rejected. -/
theorem verify_false_of_empty (p sg s : String) (h : p = "" ∨ sg = "" ∨ s = "") :
    verifyGitHubSignature p sg s = false := by
  unfold verifyGitHubSignature
  rcases h with h | h | h <;> simp [h]

/-- Soundness: any header other than the one correct signature string is
rejected. -/
theorem verify_false_of_ne (p sg s : String) (h : sg ≠ githubSig s p) :
    verifyGitHubSignature p sg s = false := by
  unfold verifyGitHubSignature
  by_cases hp : p = ""
  · simp [hp]
  by_cases hsg : sg = ""
  · simp [hsg]
  by_cases hs : s = ""
  · simp [hs]
  simp [hp, hsg, hs]
  by_cases hl : (strBytes sg).length = (strBytes (githubSig s p)).length
  · simp [hl, beq_eq_false_iff_ne]
    intro hb
    exact h (strBytes_injective hb)
  · simp [hl]

/-! ## Claim C2 -/

/-- C2 counterexample: the claim asserts `verifyGitHubSignature` returns
`true` for EVERY payload/secret pair when the header is the correctly
formatted HMAC — but at the empty payload (with secret `"k"` and exactly
that correct, non-empty header) the implementation fails closed and returns
`false`. -/
theorem C2_counterexample :
    verifyGitHubSignature "" (githubSig "k" "") "k" = false ∧
    githubSig "k" "" ≠ "" :=
  ⟨verify_false_of_empty "" (githubSig "k" "") "k" (Or.inl rfl),
   githubSig_ne_empty "k" ""⟩

/-- C2 (amended): for every NON-EMPTY payload and secret,
`verifyGitHubSignature` accepts exactly the header
`sha256=<lowercase hex HMAC-SHA256(payload, secret)>`; it rejects whenever
payload, header, or secret is empty; and it rejects every other header
string — in particular any single-bit mutation of the signature, and any
mutation of payload or secret under which the recomputed HMAC digest
differs. -/
theorem C2_theorem :
    (∀ p s : String, p ≠ "" → s ≠ "" →
       verifyGitHubSignature p (githubSig s p) s = true)
  ∧ (∀ p sg s : String, p = "" ∨ sg = "" ∨ s = "" →
       verifyGitHubSignature p sg s = false)
  ∧ (∀ p sg s : String, sg ≠ githubSig s p →
       verifyGitHubSignature p sg s = false) :=
  ⟨verify_true_of_valid, verify_false_of_empty, verify_false_of_ne⟩

set_option maxRecDepth 100000 in
/-- C2 witness: a correctly signed concrete payload is accepted and a
mangled header on the same payload is rejected. -/
theorem C2_witness :
    verifyGitHubSignature "x" (githubSig "k" "x") "k" = true ∧
    verifyGitHubSignature "x" "sha256=deadbeef" "k" = false :=
  ⟨C2_theorem.1 "x" "k" (by decide) (by decide),
   C2_theorem.2.2 "x" "sha256=deadbeef" "k" (by decide)⟩

/-! ## Claim C1 -/

/-- A raw GitHub push body exactly as delivered on the wire: note the single
space after the opening brace, which `JSON.parse` ignores and
`JSON.stringify` does not reproduce. -/
def c1RawBody : String :=
  "\x7b \"ref\":\"refs/heads/main\",\"repository\":\x7b\"full_name\":\"acme/site\"\x7d\x7d"

/-- The parsed value of `c1RawBody` (what Express hands the dispatcher as
`req.body`). -/
def c1Payload : Json :=
  Json.obj [("ref", .str "refs/heads/main"),
            ("repository", .obj [("full_name", .str "acme/site")])]

/-- A tracked project for the `acme/site` repository. -/
def c1Project : WebhookProject :=
  { githubRepo := "acme/site", webhookSecret := "s3cr3t",
    defaultBranch := "main", status := .deployed, lastDeploymentTime := none }

/-- The project lookup (`Project.findOne({ githubRepo })`). -/
def c1Lookup : String → Option WebhookProject :=
  fun r => if r = "acme/site" then some c1Project else none

set_option maxRecDepth 1000000 in
/-- C1: the dispatcher does NOT verify over the raw request body.  For the
concrete wire body `c1RawBody` — which parses to `c1Payload` but whose
parse-then-stringify round trip differs from the wire bytes — the valid
GitHub header `sha256=HMAC(c1RawBody, secret)` is accepted by
`verifyGitHubSignature` on the raw bytes, yet the dispatcher, which
re-serializes the parsed body (`JSON.stringify(payload)`), answers 401 and
makes no redeploy call.  This contradicts the claim (and the spec's hard
requirement), matching the source's own comment that the raw body should
have been used. -/
theorem C1_theorem :
    jsonParse c1RawBody = some c1Payload
  ∧ jsonStringify c1Payload ≠ c1RawBody
  ∧ verifyGitHubSignature c1RawBody (githubSig "s3cr3t" c1RawBody) "s3cr3t" = true
  ∧ handleGithubWebhook c1Lookup "push" (githubSig "s3cr3t" c1RawBody)
      c1Payload 7 true = ⟨401, 0, some c1Project⟩ :=
  ⟨rfl, by decide, by decide, by decide⟩

/-! ## Claims C5 and C10 -/

/-- C5: both status normalizers are total into the closed three-state model;
every string recognized by no keyword of the provider's heuristic normalizes
to `deploying` (never `failed`); and on Cloudflare, `"success"` normalizes to
`deployed` while `"canceled"` falls into the unknown bucket and normalizes to
`deploying`. -/
theorem C5_theorem :
    (∀ v : Option String,
       Cloudflare.coerceStatus v = .deploying ∨
       Cloudflare.coerceStatus v = .deployed ∨
       Cloudflare.coerceStatus v = .failed)
  ∧ (∀ v : Option String,
       Netlify.coerceStatus v = .deploying ∨
       Netlify.coerceStatus v = .deployed ∨
       Netlify.coerceStatus v = .failed)
  ∧ (∀ s : String,
       containsTok (strLower s) "success" = false →
       containsTok (strLower s) "active" = false →
       containsTok (strLower s) "ready" = false →
       containsTok (strLower s) "fail" = false →
       containsTok (strLower s) "error" = false →
       Cloudflare.coerceStatus (some s) = .deploying)
  ∧ (∀ s : String,
       containsTok (strLower s) "current" = false →
       containsTok (strLower s) "ready" = false →
       containsTok (strLower s) "published" = false →
       containsTok (strLower s) "error" = false →
       containsTok (strLower s) "failed" = false →
       Netlify.coerceStatus (some s) = .deploying)
  ∧ Cloudflare.coerceStatus (some "success") = .deployed
  ∧ Cloudflare.coerceStatus (some "canceled") = .deploying := by
  refine ⟨?_, ?_, ?_, ?_, by decide, by decide⟩
  · intro v
    cases h : Cloudflare.coerceStatus v <;> simp
  · intro v
    cases h : Netlify.coerceStatus v <;> simp
  · intro s h1 h2 h3 h4 h5
    simp [Cloudflare.coerceStatus, h1, h2, h3, h4, h5]
  · intro s h1 h2 h3 h4 h5
    simp [Netlify.coerceStatus, h1, h2, h3, h4, h5]

/-- C5 witness: concrete unknown stage names fall through every keyword
check and normalize to `deploying`. -/
theorem C5_witness :
    Cloudflare.coerceStatus (some "queued") = .deploying ∧
    Netlify.coerceStatus (some "building") = .deploying :=
  ⟨C5_theorem.2.2.1 "queued" (by decide) (by decide) (by decide) (by decide)
      (by decide),
   C5_theorem.2.2.2.1 "building" (by decide) (by decide) (by decide)
      (by decide) (by decide)⟩

/-- C10: in both normalizers the success-class keyword check runs first, so
a status string containing both a success-class and a failure-class keyword
normalizes to `deployed`, not `failed`. -/
theorem C10_theorem :
    (∀ s : String,
       (containsTok (strLower s) "success" || containsTok (strLower s) "active"
          || containsTok (strLower s) "ready") = true →
       (containsTok (strLower s) "fail" || containsTok (strLower s) "error") = true →
       Cloudflare.coerceStatus (some s) = .deployed)
  ∧ (∀ s : String,
       (containsTok (strLower s) "current" || containsTok (strLower s) "ready"
          || containsTok (strLower s) "published") = true →
       (containsTok (strLower s) "error" || containsTok (strLower s) "failed") = true →
       Netlify.coerceStatus (some s) = .deployed) := by
  constructor
  · intro s h1 _
    simp only [Cloudflare.coerceStatus, h1, if_true]
  · intro s h1 _
    simp only [Netlify.coerceStatus, h1, if_true]

/-- C10 witness: concrete stage names holding a success keyword and a
failure keyword at once normalize to `deployed` on both providers. -/
theorem C10_witness :
    Cloudflare.coerceStatus (some "active_failure") = .deployed ∧
    Netlify.coerceStatus (some "current_error") = .deployed :=
  ⟨C10_theorem.1 "active_failure" (by decide) (by decide),
   C10_theorem.2 "current_error" (by decide) (by decide)⟩

/-! ## Branch stripping facts -/

/-- A list always starts with itself, whatever follows. -/
theorem startsWithSeq_append (x y : List Char) :
    startsWithSeq (x ++ y) x = true := by
  induction x with
  | nil => cases y <;> simp [startsWithSeq]
  | cons a as ih => simp [startsWithSeq, ih]

/-- Removing the first occurrence of a pattern that sits at the very front
leaves exactly the tail. -/
theorem replaceFirstList_append (pat l : List Char) :
    replaceFirstList pat [] (pat ++ l) = l := by
  cases pat with
  | nil =>
    cases l with
    | nil => rfl
    | cons c rest => simp [replaceFirstList, startsWithSeq]
  | cons p ps =>
    show replaceFirstList (p :: ps) [] (p :: (ps ++ l)) = l
    simp [replaceFirstList, startsWithSeq, startsWithSeq_append,
      List.drop_left]

/-- `String.mk` undoes `String.toList`. -/
theorem string_mk_toList (s : String) : String.mk s.toList = s := by
  cases s; rfl

/-- `ref.replace('refs/heads/', '')` on a ref of the form
`refs/heads/<branch>` yields exactly `<branch>`. -/
theorem replaceFirst_strip (p rest : String) :
    replaceFirst (p ++ rest) p = rest := by
  unfold replaceFirst
  rw [show (p ++ rest).toList = p.toList ++ rest.toList from
        String.data_append p rest]
  rw [replaceFirstList_append]
  exact string_mk_toList rest

/-! ## Claims C6 and C7 -/

/-- C6: on a push event for a tracked project whose signature check passes,
a ref naming exactly the project's default branch leads to exactly one
provider redeploy call, and a ref whose stripped branch differs from the
default branch leads to zero redeploy calls and a 200 success response.
(Because of the re-serialization defect shown in C1, "validly signed" here
means the signature the dispatcher actually checks — the one over
`JSON.stringify(payload)`.) -/
theorem C6_theorem (lookup : String → Option WebhookProject) (payload : Json)
    (project : WebhookProject) (sig : String) (now : Nat) (providerOk : Bool)
    (repo refStr : String)
    (hrepo : getRepoFullName payload = some repo) (hrepoNe : repo ≠ "")
    (hlook : lookup repo = some project)
    (hsig : verifyGitHubSignature (jsonStringify payload) sig
        project.webhookSecret = true)
    (href : jsonStrField payload "ref" = some refStr) (hrefNe : refStr ≠ "") :
    (refStr = "refs/heads/" ++ project.defaultBranch →
       (handleGithubWebhook lookup "push" sig payload now providerOk).redeployCalls
         = 1)
  ∧ (replaceFirst refStr "refs/heads/" ≠ project.defaultBranch →
       handleGithubWebhook lookup "push" sig payload now providerOk
         = ⟨200, 0, some project⟩) := by
  constructor
  · intro heq
    subst heq
    simp [handleGithubWebhook, hrepo, hrepoNe, hlook, hsig, href,
      hrefNe, replaceFirst_strip]
    cases providerOk <;> simp
  · intro hbr
    simp [handleGithubWebhook, hrepo, hrepoNe, hlook, hsig, href, hrefNe, hbr]

/-- C7: on a push event for a tracked project whose signature check fails,
the dispatcher answers 401, makes zero provider redeploy calls, and leaves
the project record exactly as it was. -/
theorem C7_theorem (lookup : String → Option WebhookProject) (payload : Json)
    (project : WebhookProject) (sig : String) (now : Nat) (providerOk : Bool)
    (repo : String)
    (hrepo : getRepoFullName payload = some repo) (hrepoNe : repo ≠ "")
    (hlook : lookup repo = some project)
    (hsig : verifyGitHubSignature (jsonStringify payload) sig
        project.webhookSecret = false) :
    handleGithubWebhook lookup "push" sig payload now providerOk
      = ⟨401, 0, some project⟩ := by
  simp [handleGithubWebhook, hrepo, hrepoNe, hlook, hsig]

/-- A push payload for `acme/site` on the non-default branch `develop`. -/
def c6DevPayload : Json :=
  Json.obj [("ref", .str "refs/heads/develop"),
            ("repository", .obj [("full_name", .str "acme/site")])]

set_option maxRecDepth 1000000 in
/-- C6 witness: on the concrete tracked project (default branch `main`), a
default-branch push makes exactly one redeploy call, and a `develop` push
makes zero calls and answers 200. -/
theorem C6_witness :
    (handleGithubWebhook c1Lookup "push"
        (githubSig "s3cr3t" (jsonStringify c1Payload)) c1Payload 5 true).redeployCalls
      = 1
  ∧ handleGithubWebhook c1Lookup "push"
        (githubSig "s3cr3t" (jsonStringify c6DevPayload)) c6DevPayload 5 true
      = ⟨200, 0, some c1Project⟩ :=
  ⟨(C6_theorem c1Lookup c1Payload c1Project
      (githubSig "s3cr3t" (jsonStringify c1Payload)) 5 true "acme/site"
      "refs/heads/main" (by decide) (by decide) (by decide) (by decide)
      (by decide) (by decide)).1 (by decide),
   (C6_theorem c1Lookup c6DevPayload c1Project
      (githubSig "s3cr3t" (jsonStringify c6DevPayload)) 5 true "acme/site"
      "refs/heads/develop" (by decide) (by decide) (by decide) (by decide)
      (by decide) (by decide)).2 (by decide)⟩

set_option maxRecDepth 1000000 in
/-- C7 witness: on the concrete tracked project, the forged header
`sha256=deadbeef` is answered 401 with zero redeploy calls and an unchanged
project record. -/
theorem C7_witness :
    handleGithubWebhook c1Lookup "push" "sha256=deadbeef" c1Payload 5 true
      = ⟨401, 0, some c1Project⟩ :=
  C7_theorem c1Lookup c1Payload c1Project "sha256=deadbeef" 5 true "acme/site"
    (by decide) (by decide) (by decide) (by decide)

/-! ## Claim C8 -/

/-- C8: the delete route calls the provider first and removes the local
record only after the provider call succeeds.  When the provider delete
fails — as a `CloudflareError`/`NetlifyError` (502) or as any other thrown
error (500) — the handler returns an error and the stored record survives
unchanged, so the operation is retryable; and in every execution whatsoever,
the local record is deleted only if the provider reported success. -/
theorem C8_theorem :
    (∀ (uid : String) (project : DeleteProject) (code : Nat) (msg : String),
       project.userId = uid →
       handleDeleteProject (some uid) (some project)
           (.providerError code msg) = ⟨502, false, some project⟩)
  ∧ (∀ (uid : String) (project : DeleteProject),
       project.userId = uid →
       handleDeleteProject (some uid) (some project) .unknownError
         = ⟨500, false, some project⟩)
  ∧ (∀ (authUser : Option String) (stored : Option DeleteProject)
       (outcome : ProviderDeleteOutcome),
       (handleDeleteProject authUser stored outcome).localDeleted = true →
       outcome = .ok) := by
  refine ⟨?_, ?_, ?_⟩
  · intro uid project code msg h
    simp [handleDeleteProject, h]
  · intro uid project h
    simp [handleDeleteProject, h]
  · intro authUser stored outcome h
    cases authUser with
    | none => simp [handleDeleteProject] at h
    | some uid =>
      cases stored with
      | none => simp [handleDeleteProject] at h
      | some project =>
        by_cases hu : project.userId = uid
        · cases outcome <;> simp_all [handleDeleteProject]
        · simp [handleDeleteProject, hu] at h

/-- C8 witness: a concrete failing provider delete leaves the concrete
record in place behind a 502, and that execution did not delete locally. -/
theorem C8_witness :
    handleDeleteProject (some "u1")
        (some { userId := "u1", deploymentId := "dep-1", status := .deployed })
        (.providerError 500 "upstream down")
      = ⟨502, false,
          some { userId := "u1", deploymentId := "dep-1", status := .deployed }⟩ :=
  C8_theorem.1 "u1"
    { userId := "u1", deploymentId := "dep-1", status := .deployed }
    500 "upstream down" rfl

/-! ## Claim C9 -/

/-- `splitOnChar` never produces the empty group list. -/
theorem splitOnChar_ne_nil (sep : Char) (l : List Char) :
    splitOnChar sep l ≠ [] := by
  cases l with
  | nil => simp [splitOnChar]
  | cons a rest =>
    simp only [splitOnChar]
    cases h : splitOnChar sep rest with
    | nil => simp
    | cons g gs => by_cases hc : (a == sep) = true <;> simp [hc]

/-- A separator-free list splits into the single group holding it. -/
theorem splitOnChar_of_not_mem {sep : Char} {l : List Char} (h : sep ∉ l) :
    splitOnChar sep l = [l] := by
  induction l with
  | nil => rfl
  | cons a rest ih =>
    have ha : (a == sep) = false := by
      simp only [beq_eq_false_iff_ne, ne_eq]
      intro hh
      exact h (hh ▸ List.mem_cons_self a rest)
    have hrest : sep ∉ rest := fun hm => h (List.mem_cons_of_mem a hm)
    simp [splitOnChar, ih hrest, ha]

/-- Splitting after a separator-free head group peels that group off. -/
theorem splitOnChar_append {sep : Char} {x : List Char} (y : List Char)
    (h : sep ∉ x) : splitOnChar sep (x ++ sep :: y) = x :: splitOnChar sep y := by
  induction x with
  | nil =>
    obtain ⟨g, gs, hg⟩ : ∃ g gs, splitOnChar sep y = g :: gs := by
      cases hy : splitOnChar sep y with
      | nil => exact absurd hy (splitOnChar_ne_nil sep y)
      | cons g gs => exact ⟨g, gs, rfl⟩
    simp [splitOnChar, hg]
  | cons a as ih =>
    have ha : (a == sep) = false := by
      simp only [beq_eq_false_iff_ne, ne_eq]
      intro hh
      exact h (hh ▸ List.mem_cons_self a as)
    have has : sep ∉ as := fun hm => h (List.mem_cons_of_mem a hm)
    show splitOnChar sep (a :: (as ++ sep :: y)) = (a :: as) :: splitOnChar sep y
    simp [splitOnChar, ih has, ha]

/-- C9 counterexample: the claim asserts both providers fail validation on
every repository string that does not match the `owner/repo` shape before
any network call.  But `NetlifyService.createDeployment` performs no
validation at all — the slash-free string `"not-a-repo"` sails through to
the network request — and `CloudflareService.createDeployment` accepts the
malformed `"a/b/c"` as well, silently using only its first two segments. -/
theorem C9_counterexample :
    Netlify.prepareCreate "not-a-repo" = .ok "not-a-repo"
  ∧ Cloudflare.prepareCreate "a/b/c" = .ok ("a", "b") :=
  ⟨rfl, rfl⟩

/-- C9 (amended): `CloudflareService.createDeployment` splits the repository
string on `/` before its network call, succeeds with the first two segments
whenever both are non-empty (so a well-formed `owner/repo` parses to
`(owner, repo)`, but extra segments are not rejected), and fails with
`INVALID_GITHUB_REPO` before any network call whenever the string has no
separator at all; `NetlifyService.createDeployment` performs no repository
validation and forwards every string untouched. -/
theorem C9_theorem :
    (∀ owner repo : String, owner ≠ "" → repo ≠ "" →
       '/' ∉ owner.toList → '/' ∉ repo.toList →
       Cloudflare.prepareCreate (owner ++ "/" ++ repo) = .ok (owner, repo))
  ∧ (∀ r : String, '/' ∉ r.toList →
       Cloudflare.prepareCreate r = .error "INVALID_GITHUB_REPO")
  ∧ (∀ r : String, Netlify.prepareCreate r = .ok r) := by
  refine ⟨?_, ?_, fun r => rfl⟩
  · intro owner repo howner hrepo hslo hslr
    unfold Cloudflare.prepareCreate
    have hdata : (owner ++ "/" ++ repo).toList
        = owner.toList ++ '/' :: repo.toList := by
      show (owner ++ "/" ++ repo).data = owner.data ++ '/' :: repo.data
      rw [String.data_append, String.data_append]
      show (owner.data ++ ['/']) ++ repo.data = owner.data ++ '/' :: repo.data
      simp
    rw [hdata, splitOnChar_append repo.toList hslo,
      splitOnChar_of_not_mem hslr]
    simp [string_mk_toList, howner, hrepo]
  · intro r hsl
    unfold Cloudflare.prepareCreate
    rw [splitOnChar_of_not_mem hsl]
    simp [string_mk_toList]

/-! ## Base64 round trip -/

/-- Alphabet characters are never the padding character. -/
theorem b64Chr_ne_pad : ∀ n, n < 64 → (b64Chr n != '=') = true := by decide

/-- The alphabet lookup inverts the alphabet table. -/
theorem b64Val_chr : ∀ n, n < 64 → b64Val (b64Chr n) = some n := by decide

/-- Decoding the encoder's characters (padding stripped) recovers exactly
the encoder's sextet values. -/
theorem b64Vals_filter_encode : (l : List Nat) → (∀ b ∈ l, b < 256) →
    b64Vals ((b64EncodeList l).filter fun c => c != '=') = some (b64Sextets l)
  | [], _ => rfl
  | [a], h => by
    have ha : a < 256 := h a (by simp)
    simp [b64EncodeList, b64Sextets, List.filter, b64Vals,
      b64Chr_ne_pad (a / 4) (by omega), b64Chr_ne_pad (a % 4 * 16) (by omega),
      b64Val_chr (a / 4) (by omega), b64Val_chr (a % 4 * 16) (by omega)]
  | [a, b], h => by
    have ha : a < 256 := h a (by simp)
    have hb : b < 256 := h b (by simp)
    simp [b64EncodeList, b64Sextets, List.filter, b64Vals,
      b64Chr_ne_pad (a / 4) (by omega),
      b64Chr_ne_pad (a % 4 * 16 + b / 16) (by omega),
      b64Chr_ne_pad (b % 16 * 4) (by omega),
      b64Val_chr (a / 4) (by omega),
      b64Val_chr (a % 4 * 16 + b / 16) (by omega),
      b64Val_chr (b % 16 * 4) (by omega)]
  | a :: b :: c :: rest, h => by
    have ha : a < 256 := h a (by simp)
    have hb : b < 256 := h b (by simp)
    have hc : c < 256 := h c (by simp)
    have ih := b64Vals_filter_encode rest (fun x hx => h x (by simp [hx]))
    simp [b64EncodeList, b64Sextets, List.filter, b64Vals,
      b64Chr_ne_pad (a / 4) (by omega),
      b64Chr_ne_pad (a % 4 * 16 + b / 16) (by omega),
      b64Chr_ne_pad (b % 16 * 4 + c / 64) (by omega),
      b64Chr_ne_pad (c % 64) (by omega),
      b64Val_chr (a / 4) (by omega),
      b64Val_chr (a % 4 * 16 + b / 16) (by omega),
      b64Val_chr (b % 16 * 4 + c / 64) (by omega),
      b64Val_chr (c % 64) (by omega), ih]

/-- Reassembling the encoder's sextet values recovers the original bytes. -/
theorem b64Quads_sextets : (l : List Nat) → (∀ b ∈ l, b < 256) →
    b64Quads (b64Sextets l) = some l
  | [], _ => rfl
  | [a], h => by
    have ha : a < 256 := h a (by simp)
    simp [b64Sextets, b64Quads]
    omega
  | [a, b], h => by
    have ha : a < 256 := h a (by simp)
    have hb : b < 256 := h b (by simp)
    simp [b64Sextets, b64Quads]
    omega
  | a :: b :: c :: rest, h => by
    have ha : a < 256 := h a (by simp)
    have hb : b < 256 := h b (by simp)
    have hc : c < 256 := h c (by simp)
    have ih := b64Quads_sextets rest (fun x hx => h x (by simp [hx]))
    simp [b64Sextets, b64Quads, ih]
    omega

/-- `Buffer.from(_, 'base64')` undoes `Buffer.toString('base64')`. -/
theorem b64_roundtrip (l : List Nat) (h : ∀ b ∈ l, b < 256) :
    b64Decode (b64Encode l) = some l := by
  simp only [b64Decode, b64Encode]
  rw [show (String.mk (b64EncodeList l)).toList = b64EncodeList l from rfl]
  rw [b64Vals_filter_encode l h]
  exact b64Quads_sextets l h

/-! ## Credential-vault round trip (C3) -/

/-- The encoder emits at least one character group for a non-empty input. -/
theorem b64EncodeList_ne_nil : (l : List Nat) → l ≠ [] → b64EncodeList l ≠ []
  | [], h => absurd rfl h
  | [_], _ => by simp [b64EncodeList]
  | [_, _], _ => by simp [b64EncodeList]
  | _ :: _ :: _ :: _, _ => by simp [b64EncodeList]

/-- The base64 blob of a non-empty byte list is a non-empty string. -/
theorem b64Encode_ne_empty (l : List Nat) (h : l ≠ []) : b64Encode l ≠ "" := by
  intro he
  have hd := congrArg String.data he
  exact b64EncodeList_ne_nil l h hd

/-- Taking a left factor's length takes exactly that factor. -/
theorem take_append_of_length {α : Type} (x y : List α) (n : Nat)
    (h : x.length = n) : (x ++ y).take n = x := by
  rw [← h, List.take_left]

/-- Dropping a left factor's length leaves exactly the right factor. -/
theorem drop_append_of_length {α : Type} (x y : List α) (n : Nat)
    (h : x.length = n) : (x ++ y).drop n = y := by
  rw [← h, List.drop_left]

/-- XOR of in-range bytes stays in range. -/
theorem zipXor_lt (pt ks : List Nat) (hp : ∀ b ∈ pt, b < 256)
    (hk : ∀ b ∈ ks, b < 256) :
    ∀ b ∈ List.zipWith (fun x y => x ^^^ y) pt ks, b < 256 := by
  induction pt generalizing ks with
  | nil => simp
  | cons p ps ih =>
    cases ks with
    | nil => simp
    | cons k kks =>
      intro b hb
      simp only [List.zipWith, List.mem_cons] at hb
      rcases hb with hb | hb
      · have h256 : (256 : Nat) = 2 ^ 8 := rfl
        subst hb
        rw [h256]
        exact Nat.xor_lt_two_pow (h256 ▸ hp p (by simp))
          (h256 ▸ hk k (by simp))
      · exact ih kks (fun x hx => hp x (by simp [hx]))
          (fun x hx => hk x (by simp [hx])) b hb

/-- XOR-ing the same keystream twice is the identity. -/
theorem zipXor_cancel : (pt ks : List Nat) → pt.length ≤ ks.length →
    List.zipWith (fun x y => x ^^^ y)
      (List.zipWith (fun x y => x ^^^ y) pt ks) ks = pt
  | [], _, _ => by simp
  | _ :: _, [], h => by simp at h
  | p :: ps, k :: kks, h => by
    simp only [List.zipWith, List.cons.injEq]
    refine ⟨?_, zipXor_cancel ps kks (by simpa using h)⟩
    simp [Nat.xor_assoc]

/-- C3: with a configured (non-empty) server key and a non-empty token, the
stored blob is exactly `base64(salt ‖ iv ‖ authTag ‖ ciphertext)` — built
over the PBKDF2(100000)-derived per-encryption key — and decryption inverts
encryption byte-for-byte. -/
theorem C3_theorem (A : AEADModel)
    (kdf : String → List Nat → Nat → Nat → List Nat) (encryptionKey : String)
    (salt iv token : List Nat)
    (hkey : encryptionKey ≠ "") (htok : token ≠ [])
    (hsalt : salt.length = 16) (hiv : iv.length = 12)
    (hsb : ∀ b ∈ salt, b < 256) (hib : ∀ b ∈ iv, b < 256)
    (htb : ∀ b ∈ token, b < 256) :
    ∃ blob,
      encryptToken A kdf encryptionKey salt iv token = .ok blob ∧
      blob = b64Encode (salt ++ iv ++
        (gcmEncrypt A (kdf encryptionKey salt 100000 32) iv token).2 ++
        (gcmEncrypt A (kdf encryptionKey salt 100000 32) iv token).1) ∧
      decryptToken A kdf encryptionKey blob = .ok token := by
  have hkeylen := A.keystream_length (kdf encryptionKey salt 100000 32) iv
    token.length
  have hct : (gcmEncrypt A (kdf encryptionKey salt 100000 32) iv token).1
      = List.zipWith (fun x y => x ^^^ y) token
          (A.keystream (kdf encryptionKey salt 100000 32) iv token.length) :=
    rfl
  have htag : (gcmEncrypt A (kdf encryptionKey salt 100000 32) iv token).2
      = A.mac (kdf encryptionKey salt 100000 32) iv
          (gcmEncrypt A (kdf encryptionKey salt 100000 32) iv token).1 := rfl
  refine ⟨_, ?_, rfl, ?_⟩
  · simp [encryptToken, htok, hkey]
  · have hctlen :
        (gcmEncrypt A (kdf encryptionKey salt 100000 32) iv token).1.length
          = token.length := by
      rw [hct, List.length_zipWith, hkeylen, Nat.min_self]
    have htaglen :
        (gcmEncrypt A (kdf encryptionKey salt 100000 32) iv token).2.length
          = 16 := by
      rw [htag]; exact A.mac_length _ _ _
    have hcomb : ∀ b ∈ salt ++ iv ++
        (gcmEncrypt A (kdf encryptionKey salt 100000 32) iv token).2 ++
        (gcmEncrypt A (kdf encryptionKey salt 100000 32) iv token).1, b < 256 := by
      intro x hx
      simp only [List.mem_append] at hx
      rcases hx with ((hx | hx) | hx) | hx
      · exact hsb x hx
      · exact hib x hx
      · exact A.mac_lt _ _ _ x (htag ▸ hx)
      · exact zipXor_lt token _ htb (A.keystream_lt _ _ _) x (hct ▸ hx)
    have hne : salt ++ iv ++
        (gcmEncrypt A (kdf encryptionKey salt 100000 32) iv token).2 ++
        (gcmEncrypt A (kdf encryptionKey salt 100000 32) iv token).1 ≠ [] := by
      intro h0
      have hl0 := congrArg List.length h0
      simp [hsalt, hiv] at hl0
    have hblob := b64Encode_ne_empty _ hne
    have hlen : ¬ (salt ++ iv ++
        (gcmEncrypt A (kdf encryptionKey salt 100000 32) iv token).2 ++
        (gcmEncrypt A (kdf encryptionKey salt 100000 32) iv token).1).length < 44 := by
      simp [List.length_append, hsalt, hiv, htaglen]
      omega
    have hassoc : salt ++ iv ++
        (gcmEncrypt A (kdf encryptionKey salt 100000 32) iv token).2 ++
        (gcmEncrypt A (kdf encryptionKey salt 100000 32) iv token).1
        = salt ++ (iv ++
          ((gcmEncrypt A (kdf encryptionKey salt 100000 32) iv token).2 ++
           (gcmEncrypt A (kdf encryptionKey salt 100000 32) iv token).1)) := by
      simp [List.append_assoc]
    have h16 : (salt ++ iv ++
        (gcmEncrypt A (kdf encryptionKey salt 100000 32) iv token).2 ++
        (gcmEncrypt A (kdf encryptionKey salt 100000 32) iv token).1).take 16
        = salt := by
      rw [hassoc]; exact take_append_of_length _ _ 16 hsalt
    have hd16 : (salt ++ iv ++
        (gcmEncrypt A (kdf encryptionKey salt 100000 32) iv token).2 ++
        (gcmEncrypt A (kdf encryptionKey salt 100000 32) iv token).1).drop 16
        = iv ++ ((gcmEncrypt A (kdf encryptionKey salt 100000 32) iv token).2 ++
          (gcmEncrypt A (kdf encryptionKey salt 100000 32) iv token).1) := by
      rw [hassoc]; exact drop_append_of_length _ _ 16 hsalt
    have h12 := take_append_of_length iv
      ((gcmEncrypt A (kdf encryptionKey salt 100000 32) iv token).2 ++
        (gcmEncrypt A (kdf encryptionKey salt 100000 32) iv token).1) 12 hiv
    have hd28 : (salt ++ iv ++
        (gcmEncrypt A (kdf encryptionKey salt 100000 32) iv token).2 ++
        (gcmEncrypt A (kdf encryptionKey salt 100000 32) iv token).1).drop 28
        = (gcmEncrypt A (kdf encryptionKey salt 100000 32) iv token).2 ++
          (gcmEncrypt A (kdf encryptionKey salt 100000 32) iv token).1 := by
      rw [show salt ++ iv ++
            (gcmEncrypt A (kdf encryptionKey salt 100000 32) iv token).2 ++
            (gcmEncrypt A (kdf encryptionKey salt 100000 32) iv token).1
          = (salt ++ iv) ++
            ((gcmEncrypt A (kdf encryptionKey salt 100000 32) iv token).2 ++
             (gcmEncrypt A (kdf encryptionKey salt 100000 32) iv token).1) by
        simp [List.append_assoc]]
      exact drop_append_of_length _ _ 28 (by simp [hsalt, hiv])
    have h16t := take_append_of_length
      (gcmEncrypt A (kdf encryptionKey salt 100000 32) iv token).2
      (gcmEncrypt A (kdf encryptionKey salt 100000 32) iv token).1 16 htaglen
    have hd44 : (salt ++ iv ++
        (gcmEncrypt A (kdf encryptionKey salt 100000 32) iv token).2 ++
        (gcmEncrypt A (kdf encryptionKey salt 100000 32) iv token).1).drop 44
        = (gcmEncrypt A (kdf encryptionKey salt 100000 32) iv token).1 := by
      rw [show salt ++ iv ++
            (gcmEncrypt A (kdf encryptionKey salt 100000 32) iv token).2 ++
            (gcmEncrypt A (kdf encryptionKey salt 100000 32) iv token).1
          = ((salt ++ iv) ++
             (gcmEncrypt A (kdf encryptionKey salt 100000 32) iv token).2) ++
            (gcmEncrypt A (kdf encryptionKey salt 100000 32) iv token).1 by
        simp [List.append_assoc]]
      exact drop_append_of_length _ _ 44 (by simp [hsalt, hiv, htaglen])
    simp only [decryptToken, hblob, hkey, if_false, b64_roundtrip _ hcomb,
      hlen, h16, hd16, h12, hd28, h16t, hd44, gcmDecrypt]
    rw [if_pos htag.symm, hctlen, hct,
      zipXor_cancel token _ (le_of_eq hkeylen.symm)]

/-! ## Claim C4 -/

/-- C4: whenever the authentication tag embedded in a stored blob does not
verify against the tag recomputed over the blob's ciphertext portion,
`decryptToken` yields the empty token — never the original or partially
decrypted plaintext — and `User.getGitHubToken` absorbs every decryption
failure (including the thrown missing-`ENCRYPTION_KEY` error) into the empty
token instead of propagating it. -/
theorem C4_theorem (A : AEADModel)
    (kdf : String → List Nat → Nat → Nat → List Nat) (encryptionKey : String)
    (blob : String) (combined : List Nat)
    (hkey : encryptionKey ≠ "")
    (hdec : b64Decode blob = some combined) (hlen : 44 ≤ combined.length)
    (htag : A.mac (kdf encryptionKey (combined.take 16) 100000 32)
        ((combined.drop 16).take 12) (combined.drop 44)
        ≠ (combined.drop 28).take 16) :
    decryptToken A kdf encryptionKey blob = .ok []
  ∧ getGitHubToken A kdf encryptionKey (some blob) = []
  ∧ (∀ blob2, getGitHubToken A kdf "" (some blob2) = []) := by
  have hblob : blob ≠ "" := by
    intro h0
    subst h0
    rw [show b64Decode "" = some [] from rfl] at hdec
    injection hdec with h1
    rw [← h1] at hlen
    simp at hlen
  have hdt : decryptToken A kdf encryptionKey blob = .ok [] := by
    simp only [decryptToken, hblob, hkey, if_false, hdec, gcmDecrypt]
    rw [if_neg (by omega), if_neg htag]
  refine ⟨hdt, ?_, ?_⟩
  · simp [getGitHubToken, hdt]
  · intro blob2
    by_cases h2 : blob2 = ""
    · subst h2
      simp [getGitHubToken, decryptToken]
    · simp [getGitHubToken, decryptToken, h2]

/-! ## Concrete AEAD/KDF instances for the witnesses -/

/-- A concrete cipher of the model's keystream-plus-MAC shape (the laws are
immediate), used only to evaluate the vault at concrete inputs. -/
def constAEAD : AEADModel where
  keystream := fun _ _ n => List.replicate n 7
  mac := fun _ _ _ => List.replicate 16 0
  keystream_length := fun _ _ n => List.length_replicate n 7
  keystream_lt := fun _ _ n b hb => by
    have := List.eq_of_mem_replicate hb
    omega
  mac_length := fun _ _ _ => List.length_replicate 16 0
  mac_lt := fun _ _ _ b hb => by
    have := List.eq_of_mem_replicate hb
    omega

/-- A concrete key-derivation stand-in for the witnesses. -/
def constKdf : String → List Nat → Nat → Nat → List Nat :=
  fun _ _ _ n => List.replicate n 1

/-- C3 witness: a concrete two-byte token round-trips through the vault
under a concrete server key, salt, and IV. -/
theorem C3_witness :
    ∃ blob,
      encryptToken constAEAD constKdf "server-key" (List.replicate 16 2)
          (List.replicate 12 3) [104, 105] = .ok blob ∧
      blob = b64Encode (List.replicate 16 2 ++ List.replicate 12 3 ++
        (gcmEncrypt constAEAD
            (constKdf "server-key" (List.replicate 16 2) 100000 32)
            (List.replicate 12 3) [104, 105]).2 ++
        (gcmEncrypt constAEAD
            (constKdf "server-key" (List.replicate 16 2) 100000 32)
            (List.replicate 12 3) [104, 105]).1) ∧
      decryptToken constAEAD constKdf "server-key" blob = .ok [104, 105] :=
  C3_theorem constAEAD constKdf "server-key" (List.replicate 16 2)
    (List.replicate 12 3) [104, 105] (by decide) (by decide) (by decide)
    (by decide) (by decide) (by decide) (by decide)

/-- C4 witness: a concrete 45-byte blob whose embedded tag (sixteen `1`
bytes) disagrees with the recomputed tag decrypts to the empty token, also
through `getGitHubToken`, and a missing server key degrades to the empty
token as well. -/
theorem C4_witness :
    decryptToken constAEAD constKdf "server-key"
        (b64Encode (List.replicate 28 0 ++ List.replicate 16 1 ++ [9])) = .ok []
  ∧ getGitHubToken constAEAD constKdf "server-key"
        (some (b64Encode (List.replicate 28 0 ++ List.replicate 16 1 ++ [9])))
      = []
  ∧ (∀ blob2, getGitHubToken constAEAD constKdf "" (some blob2) = []) :=
  C4_theorem constAEAD constKdf "server-key"
    (b64Encode (List.replicate 28 0 ++ List.replicate 16 1 ++ [9]))
    (List.replicate 28 0 ++ List.replicate 16 1 ++ [9])
    (by decide) (by decide) (by decide) (by decide)

/-! ## Fidelity vectors for the executable hash -/

set_option maxRecDepth 100000 in
/-- FIPS 180-4 vector: SHA-256 of the empty message. -/
theorem sha256_empty_vector :
    bytesToHex (sha256 []) =
      "e3b0c44298fc1c149afbf4c8996fb92427ae41e4649b934ca495991b7852b855" := by
  decide

set_option maxRecDepth 100000 in
/-- FIPS 180-4 vector: SHA-256 of `"abc"`. -/
theorem sha256_abc_vector :
    bytesToHex (sha256 (strBytes "abc")) =
      "ba7816bf8f01cfea414140de5dae2223b00361a396177a9cb410ff61f20015ad" := by
  decide

set_option maxRecDepth 100000 in
/-- RFC 2202-style vector: HMAC-SHA256 with key `"key"` over the quick brown
fox sentence. -/
theorem hmacSha256_fox_vector :
    hmacHex "key" "The quick brown fox jumps over the lazy dog" =
      "f7bc83f430538424b13298e6aa6fb143ef4d59a14946175997479dbc2d1a3cd8" := by
  decide

/-- C9 witness: a concrete well-formed repository parses to its two
segments on Cloudflare, a concrete slash-free one fails Cloudflare's
pre-network validation, and Netlify forwards the slash-free one untouched. -/
theorem C9_witness :
    Cloudflare.prepareCreate ("acme" ++ "/" ++ "site") = .ok ("acme", "site")
  ∧ Cloudflare.prepareCreate "noslash" = .error "INVALID_GITHUB_REPO"
  ∧ Netlify.prepareCreate "noslash" = .ok "noslash" :=
  ⟨C9_theorem.1 "acme" "site" (by decide) (by decide) (by decide) (by decide),
   C9_theorem.2.1 "noslash" (by decide),
   C9_theorem.2.2 "noslash"⟩
